import Mathlib

/-!
Verification of the PIN-entry state machine in `pin.go` (package `trezor`).

The Go function `GetPIN` runs a render-then-wait loop over a mutable state
consisting of a cursor `(cursorX, cursorY)` (both start at 1) and an
accumulated `pin` string.  Each loop iteration renders a frame via termbox
and then polls one event; key events move the cursor (clamped to `[0,2]`
after the switch), append the keypad digit under the cursor, delete the
last digit, submit the pin, or cancel.  Go strings of ASCII digits are
embedded as `List Char`; Go `int` as `Int`.
-/

/-- Machine state of the `GetPIN` loop: the local variables
`cursorX`, `cursorY` (Go `int`) and `pin` (Go string, embedded as a
character list). -/
structure State where
  cursorX : Int
  cursorY : Int
  pin : List Char
deriving DecidableEq, Repr

/-- Embedding of the termbox key codes that the `GetPIN` switch statement
distinguishes.  `noKey` stands for the zero key code carried by plain
character events; `otherKey` stands for any other key code that the
switch does not name (its default branch does nothing). -/
inductive Key where
  | ctrlC
  | arrowUp
  | arrowDown
  | arrowLeft
  | arrowRight
  | space
  | backspace
  | backspace2
  | enter
  | noKey
  | otherKey
deriving DecidableEq, Repr

/-- Embedding of a termbox event: `isKey` is the test
`event.Type == termbox.EventKey`; `ch` is `event.Ch` (the rune, `0` for
special keys); `key` is `event.Key`. -/
structure Event where
  isKey : Bool
  ch : Char
  key : Key
deriving DecidableEq, Repr

/-- A special-key event as termbox delivers it: `Ch` is the zero rune. -/
def keyEvent (k : Key) : Event :=
  { isKey := true, ch := Char.ofNat 0, key := k }

/-- A plain character event as termbox delivers it: the key code is zero. -/
def charEvent (c : Char) : Event :=
  { isKey := true, ch := c, key := Key.noKey }

/-- The Go errors observable from `GetPIN`: `none` is Go `nil`,
`userCancelledInput` is `ErrUserCancelledInput`, `initFailure` is an error
returned by `termbox.Init()`. -/
inductive GoError where
  | none
  | userCancelledInput
  | initFailure
deriving DecidableEq, Repr

/-- Outcome of one loop iteration: either the loop continues with an
updated state, or `GetPIN` returns with a `(string, error)` pair. -/
inductive Outcome where
  | running (s : State)
  | done (ret : List Char) (err : GoError)
deriving DecidableEq, Repr

/-- The local `clamp` closure of `GetPIN`. -/
def clamp (x min max : Int) : Int :=
  if x < min then min
  else if x > max then max
  else x

/-- The local `keypad` table of `GetPIN`: each entry is the one-character
Go string appended on select.  Row 0 is 7,8,9; row 1 is 4,5,6; row 2 is
1,2,3. -/
def keypad : List (List (List Char)) :=
  [[['7'], ['8'], ['9']],
   [['4'], ['5'], ['6']],
   [['1'], ['2'], ['3']]]

/-- The Go indexing `keypad[cursorY][cursorX]`.  Reachable states keep
both indices inside `[0,2]`, where `getD` agrees with Go indexing. -/
def keypadAt (y x : Int) : List Char :=
  (keypad.getD y.toNat []).getD x.toNat []

/-- The code after the switch statement: clamp both cursor axes to
`[0,2]` and continue the loop. -/
def afterSwitch (s : State) : Outcome :=
  Outcome.running
    { s with cursorY := clamp s.cursorY 0 2, cursorX := clamp s.cursorX 0 2 }

/-- The backspace branch body: drop the last character when the pin is
non-empty. -/
def deleteLast (pin : List Char) : List Char :=
  if pin.length > 0 then pin.dropLast else pin

/-- The "Update state" block of the `GetPIN` loop, applied to one polled
event: non-key events are skipped (`continue`); `q` or Ctrl+C returns
`("", ErrUserCancelledInput)`; otherwise the switch on the key code runs,
followed by the two clamps (except on the returning `Enter` branch). -/
def step (s : State) (e : Event) : Outcome :=
  if e.isKey = false then Outcome.running s
  else if e.ch = 'q' ∨ e.key = Key.ctrlC then
    Outcome.done [] GoError.userCancelledInput
  else
    match e.key with
    | Key.arrowUp => afterSwitch { s with cursorY := s.cursorY - 1 }
    | Key.arrowDown => afterSwitch { s with cursorY := s.cursorY + 1 }
    | Key.arrowLeft => afterSwitch { s with cursorX := s.cursorX - 1 }
    | Key.arrowRight => afterSwitch { s with cursorX := s.cursorX + 1 }
    | Key.space => afterSwitch { s with pin := s.pin ++ keypadAt s.cursorY s.cursorX }
    | Key.backspace => afterSwitch { s with pin := deleteLast s.pin }
    | Key.backspace2 => afterSwitch { s with pin := deleteLast s.pin }
    | Key.enter => Outcome.done s.pin GoError.none
    | _ => afterSwitch s

/-- One loop iteration lifted to outcomes: once `GetPIN` has returned,
later events are never polled. -/
def stepO (o : Outcome) (e : Event) : Outcome :=
  match o with
  | Outcome.running s => step s e
  | Outcome.done r err => Outcome.done r err

/-- Run the loop from a given state over a finite list of polled events. -/
def runFrom (s : State) (es : List Event) : Outcome :=
  es.foldl stepO (Outcome.running s)

/-- The initial state of `GetPIN`: `cursorX = 1`, `cursorY = 1`, empty pin. -/
def initState : State :=
  { cursorX := 1, cursorY := 1, pin := [] }

/-- `GetPIN` itself, with the termbox lifecycle made observable.
`initFails` says whether `termbox.Init()` returns an error.  The result
is `none` while the loop is still blocked in `PollEvent` (the function
has not returned), and otherwise `some ((ret, err), closes)` where
`closes` counts invocations of `termbox.Close`: the `defer termbox.Close()`
is registered only after `Init` succeeds, so it runs exactly once on each
return thereafter, and an `Init` failure returns before it is registered. -/
def GetPIN (initFails : Bool) (es : List Event) :
    Option ((List Char × GoError) × Nat) :=
  if initFails then some (([], GoError.initFailure), 0)
  else
    match runFrom initState es with
    | Outcome.done ret err => some ((ret, err), 1)
    | Outcome.running _ => none

/-- The draw operations `GetPIN` issues to termbox in one render pass. -/
inductive DrawCmd where
  | clear
  | setCell (x y : Int) (c : Char)
  | setCursor (x y : Int)
  | flush
deriving DecidableEq, Repr

/-- The local `printStr` closure: one `SetCell` per rune, advancing one
column per rune starting at `x`. -/
def printStr (x y : Int) (s : List Char) : List DrawCmd :=
  s.enum.map (fun p => DrawCmd.setCell (x + (p.1 : Int)) y p.2)

/-- The masking of the pin in the render pass:
`strings.Map(func(rune) rune { return mask }, pin)` with the filled-circle
mask rune. -/
def maskDots (pin : List Char) : List Char :=
  pin.map (fun _ => '●')

/-- The "Render" block of the `GetPIN` loop: the full sequence of termbox
calls issued for the current state, in order. -/
def render (prompt : List Char) (s : State) : List DrawCmd :=
  [DrawCmd.clear]
    ++ printStr 0 0 prompt
    ++ printStr 3 2 ['●', '●', '●']
    ++ printStr 3 3 ['●', '●', '●']
    ++ printStr 3 4 ['●', '●', '●']
    ++ printStr 0 6 ((("PIN: ").toList) ++ maskDots s.pin)
    ++ printStr 0 9 (("[Arrow keys]: move cursor").toList)
    ++ printStr 0 10 (("[Space]:      press button under cursor").toList)
    ++ printStr 0 11 (("[Backspace]:  delete").toList)
    ++ printStr 0 12 (("[Enter]:      submit PIN").toList)
    ++ printStr 0 13 (("[q]:          exit without submitting PIN").toList)
    ++ [DrawCmd.setCursor (s.cursorX + 3) (s.cursorY + 2), DrawCmd.flush]

/-- The spec's fixed position-to-digit table, written from the spec's own
enumeration (a refinement reference for the source `keypad`). -/
def specDigit (r c : Int) : Char :=
  if r = 0 ∧ c = 0 then '7'
  else if r = 0 ∧ c = 1 then '8'
  else if r = 0 ∧ c = 2 then '9'
  else if r = 1 ∧ c = 0 then '4'
  else if r = 1 ∧ c = 1 then '5'
  else if r = 1 ∧ c = 2 then '6'
  else if r = 2 ∧ c = 0 then '1'
  else if r = 2 ∧ c = 1 then '2'
  else if r = 2 ∧ c = 2 then '3'
  else ' '

/-- Both cursor axes lie in `[0,2]`. -/
def inRange (s : State) : Prop :=
  0 ≤ s.cursorY ∧ s.cursorY ≤ 2 ∧ 0 ≤ s.cursorX ∧ s.cursorX ≤ 2

lemma clamp_bounds (x : Int) : 0 ≤ clamp x 0 2 ∧ clamp x 0 2 ≤ 2 := by
  simp only [clamp]
  split_ifs <;> omega

lemma clamp_id (x : Int) (h0 : 0 ≤ x) (h2 : x ≤ 2) : clamp x 0 2 = x := by
  simp only [clamp]
  split_ifs <;> omega

lemma afterSwitch_running_inRange {s s' : State}
    (h : afterSwitch s = Outcome.running s') : inRange s' := by
  unfold afterSwitch at h
  injection h with h
  subst h
  exact ⟨(clamp_bounds _).1, (clamp_bounds _).2, (clamp_bounds _).1, (clamp_bounds _).2⟩

lemma step_running_inRange {s s' : State} {e : Event} (hs : inRange s)
    (h : step s e = Outcome.running s') : inRange s' := by
  rcases e with ⟨ik, ch, k⟩
  cases ik with
  | false =>
    simp only [step, if_pos rfl] at h
    injection h with h
    subst h
    exact hs
  | true =>
    by_cases hq : ch = 'q' ∨ k = Key.ctrlC
    · simp [step, hq] at h
    · cases k <;> simp only [step, hq, if_neg, if_false, Bool.true_eq_false] at h <;>
        first
          | exact afterSwitch_running_inRange h
          | simp_all

lemma foldl_done (es : List Event) (r : List Char) (err : GoError) :
    es.foldl stepO (Outcome.done r err) = Outcome.done r err := by
  induction es with
  | nil => rfl
  | cons e es ih => simpa [stepO] using ih

lemma runFrom_running_inRange :
    ∀ (es : List Event) (s s' : State), inRange s →
      runFrom s es = Outcome.running s' → inRange s' := by
  intro es
  induction es with
  | nil =>
    intro s s' hs h
    simp only [runFrom, List.foldl_nil] at h
    injection h with h
    subst h
    exact hs
  | cons e es ih =>
    intro s s' hs h
    simp only [runFrom, List.foldl_cons] at h
    have h' : List.foldl stepO (step s e) es = Outcome.running s' := h
    cases hst : step s e with
    | running s1 =>
      rw [hst] at h'
      exact ih s1 s' (step_running_inRange hs hst) h'
    | done r err =>
      rw [hst, foldl_done] at h'
      exact Outcome.noConfusion h'

example : runFrom initState [keyEvent Key.space] =
    Outcome.running { cursorX := 1, cursorY := 1, pin := ['5'] } := by decide

example : runFrom initState
    [keyEvent Key.arrowDown, keyEvent Key.arrowRight, keyEvent Key.space,
     keyEvent Key.arrowUp, keyEvent Key.arrowLeft, keyEvent Key.space,
     keyEvent Key.space, keyEvent Key.enter] =
    Outcome.done ['3', '5', '5'] GoError.none := by decide

lemma keypadAt_eq_specDigit (r c : Int) (hr0 : 0 ≤ r) (hr2 : r ≤ 2)
    (hc0 : 0 ≤ c) (hc2 : c ≤ 2) : keypadAt r c = [specDigit r c] := by
  have hr : r = 0 ∨ r = 1 ∨ r = 2 := by omega
  have hc : c = 0 ∨ c = 1 ∨ c = 2 := by omega
  rcases hr with rfl | rfl | rfl <;> rcases hc with rfl | rfl | rfl <;> rfl

/-- Claim C2: starting from the initial state, after every event step both
cursor axes lie in `[0,2]`, so the `keypad[cursorY][cursorX]` indexing of
the select branch is always in bounds. -/
theorem cursor_always_in_range (es : List Event) (s : State)
    (h : runFrom initState es = Outcome.running s) :
    inRange s ∧ s.cursorY.toNat < keypad.length ∧
      s.cursorX.toNat < (keypad.getD s.cursorY.toNat []).length := by
  have hin : inRange s :=
    runFrom_running_inRange es initState s (by simp [inRange, initState]) h
  obtain ⟨h1, h2, h3, h4⟩ := hin
  refine ⟨⟨h1, h2, h3, h4⟩, ?_, ?_⟩
  · simp only [keypad, List.length_cons, List.length_nil]
    omega
  · have hy : s.cursorY.toNat = 0 ∨ s.cursorY.toNat = 1 ∨ s.cursorY.toNat = 2 := by
      omega
    have hlen : (keypad.getD s.cursorY.toNat []).length = 3 := by
      rcases hy with hy | hy | hy <;> rw [hy] <;> rfl
    rw [hlen]
    omega

/-- Witness for C2 at the empty event sequence. -/
theorem cursor_always_in_range_witness :
    runFrom initState [] = Outcome.running initState ∧
      (inRange initState ∧ initState.cursorY.toNat < keypad.length ∧
        initState.cursorX.toNat <
          (keypad.getD initState.cursorY.toNat []).length) :=
  ⟨rfl, cursor_always_in_range [] initState rfl⟩

/-- Claim C1: in any state with both cursor axes in `[0,2]`, a select
(space) key event appends exactly the spec's fixed digit for the cursor
position to the pin and changes nothing else. -/
theorem select_appends_fixed_digit (s : State) (e : Event)
    (hk : e.isKey = true) (hq : e.ch ≠ 'q') (hsp : e.key = Key.space)
    (h1 : 0 ≤ s.cursorY) (h2 : s.cursorY ≤ 2) (h3 : 0 ≤ s.cursorX)
    (h4 : s.cursorX ≤ 2) :
    step s e = Outcome.running
      { s with pin := s.pin ++ [specDigit s.cursorY s.cursorX] } := by
  rcases e with ⟨ik, ch, k⟩
  dsimp at hk hq hsp
  subst hk hsp
  simp only [step, Bool.true_eq_false, if_false]
  rw [if_neg (by simp [hq])]
  show afterSwitch { s with pin := s.pin ++ keypadAt s.cursorY s.cursorX } = _
  unfold afterSwitch
  rw [keypadAt_eq_specDigit _ _ h1 h2 h3 h4]
  simp only [clamp_id _ h1 h2, clamp_id _ h3 h4]

/-- Witness for C1 at the initial state and a space key event. -/
theorem select_appends_fixed_digit_witness :
    (keyEvent Key.space).isKey = true ∧ (keyEvent Key.space).ch ≠ 'q' ∧
      (keyEvent Key.space).key = Key.space ∧
      step initState (keyEvent Key.space) = Outcome.running
        { initState with
            pin := initState.pin ++
              [specDigit initState.cursorY initState.cursorX] } :=
  ⟨rfl, by decide, rfl,
    select_appends_fixed_digit initState (keyEvent Key.space) rfl (by decide)
      rfl (by decide) (by decide) (by decide) (by decide)⟩

/-- Claim C10: a fresh session starts with the cursor at row 1, column 1
(the center cell), so a first select with no prior movement appends the
digit 5, not the digit 7 of position (0,0). -/
theorem initial_cursor_is_center :
    initState.cursorY = 1 ∧ initState.cursorX = 1 ∧
      runFrom initState [keyEvent Key.space] =
        Outcome.running { cursorX := 1, cursorY := 1, pin := ['5'] } ∧
      ('5' : Char) ≠ '7' := by
  refine ⟨rfl, rfl, by decide, by decide⟩

/-- Claim C3: in any state, whatever the accumulated pin, a key event
carrying the character q or the Ctrl+C key code ends the session with the
cancellation error and an empty returned string, and no later event is
processed. -/
theorem quit_returns_cancelled_empty (s : State) (e : Event) (es : List Event)
    (hk : e.isKey = true) (hq : e.ch = 'q' ∨ e.key = Key.ctrlC) :
    runFrom s (e :: es) = Outcome.done [] GoError.userCancelledInput := by
  have hstep : step s e = Outcome.done [] GoError.userCancelledInput := by
    rcases e with ⟨ik, ch, k⟩
    dsimp at hk hq
    subst hk
    rcases hq with hq | hq <;> simp [step, hq]
  simp only [runFrom, List.foldl_cons]
  show List.foldl stepO (step s e) es = _
  rw [hstep, foldl_done]

/-- Witness for C3: a q keystroke after one accumulated digit cancels with
an empty result. -/
theorem quit_returns_cancelled_empty_witness :
    (charEvent 'q').isKey = true ∧
      ((charEvent 'q').ch = 'q' ∨ (charEvent 'q').key = Key.ctrlC) ∧
      runFrom { cursorX := 1, cursorY := 1, pin := ['5'] }
          [charEvent 'q', keyEvent Key.enter] =
        Outcome.done [] GoError.userCancelledInput :=
  ⟨rfl, Or.inl rfl,
    quit_returns_cancelled_empty { cursorX := 1, cursorY := 1, pin := ['5'] }
      (charEvent 'q') [keyEvent Key.enter] rfl (Or.inl rfl)⟩

/-- Claim C4: in any state, an Enter key event ends the session returning
the accumulated pin as-is with the nil error; with zero digits accumulated
this is the empty string as a success (see the witness). -/
theorem submit_returns_pin_no_error (s : State) (e : Event)
    (hk : e.isKey = true) (hq : e.ch ≠ 'q') (he : e.key = Key.enter) :
    step s e = Outcome.done s.pin GoError.none := by
  rcases e with ⟨ik, ch, k⟩
  dsimp at hk hq he
  subst hk he
  simp [step, hq]

/-- Witness for C4: submitting immediately from the initial state returns
the empty string with the nil error. -/
theorem submit_returns_pin_no_error_witness :
    (keyEvent Key.enter).isKey = true ∧ (keyEvent Key.enter).ch ≠ 'q' ∧
      (keyEvent Key.enter).key = Key.enter ∧
      step initState (keyEvent Key.enter) =
        Outcome.done ([] : List Char) GoError.none :=
  ⟨rfl, by decide, rfl,
    submit_returns_pin_no_error initState (keyEvent Key.enter) rfl (by decide)
      rfl⟩

/-- Claim C5: in any state with both cursor axes in `[0,2]`, each
directional key event changes exactly its own axis, moving it by one and
clamping it to `[0,2]`, while the other axis and the pin are unchanged
(the unconditional clamp of the untouched axis is the identity there). -/
theorem directional_event_clamps_axis (s : State)
    (h1 : 0 ≤ s.cursorY) (h2 : s.cursorY ≤ 2) (h3 : 0 ≤ s.cursorX)
    (h4 : s.cursorX ≤ 2) :
    (∀ e : Event, e.isKey = true → e.ch ≠ 'q' → e.key = Key.arrowUp →
      step s e = Outcome.running { s with cursorY := clamp (s.cursorY - 1) 0 2 }) ∧
    (∀ e : Event, e.isKey = true → e.ch ≠ 'q' → e.key = Key.arrowDown →
      step s e = Outcome.running { s with cursorY := clamp (s.cursorY + 1) 0 2 }) ∧
    (∀ e : Event, e.isKey = true → e.ch ≠ 'q' → e.key = Key.arrowLeft →
      step s e = Outcome.running { s with cursorX := clamp (s.cursorX - 1) 0 2 }) ∧
    (∀ e : Event, e.isKey = true → e.ch ≠ 'q' → e.key = Key.arrowRight →
      step s e = Outcome.running { s with cursorX := clamp (s.cursorX + 1) 0 2 }) := by
  refine ⟨?_, ?_, ?_, ?_⟩ <;>
    · rintro ⟨ik, ch, k⟩ hk hq hdir
      dsimp at hk hq hdir
      subst hk hdir
      simp only [step, Bool.true_eq_false, if_false]
      rw [if_neg (by simp [hq])]
      unfold afterSwitch
      simp only [clamp_id _ h1 h2, clamp_id _ h3 h4]

/-- Witness for C5 at the initial state, one application per direction. -/
theorem directional_event_clamps_axis_witness :
    step initState (keyEvent Key.arrowUp) =
        Outcome.running { initState with cursorY := clamp (initState.cursorY - 1) 0 2 } ∧
      step initState (keyEvent Key.arrowDown) =
        Outcome.running { initState with cursorY := clamp (initState.cursorY + 1) 0 2 } ∧
      step initState (keyEvent Key.arrowLeft) =
        Outcome.running { initState with cursorX := clamp (initState.cursorX - 1) 0 2 } ∧
      step initState (keyEvent Key.arrowRight) =
        Outcome.running { initState with cursorX := clamp (initState.cursorX + 1) 0 2 } := by
  obtain ⟨hu, hd, hl, hr⟩ :=
    directional_event_clamps_axis initState (by decide) (by decide) (by decide)
      (by decide)
  exact ⟨hu (keyEvent Key.arrowUp) rfl (by decide) rfl,
    hd (keyEvent Key.arrowDown) rfl (by decide) rfl,
    hl (keyEvent Key.arrowLeft) rfl (by decide) rfl,
    hr (keyEvent Key.arrowRight) rfl (by decide) rfl⟩

/-- Claim C6, counterexample: from pre-append pin 7, a select followed by
two deletes yields the empty pin, not the pre-append pin 7 — so
delete(delete(append(x))) is not the identity on the pre-append state. -/
theorem delete_delete_append_not_identity :
    runFrom { cursorX := 1, cursorY := 1, pin := ['7'] }
        [keyEvent Key.space, keyEvent Key.backspace, keyEvent Key.backspace] =
      Outcome.running { cursorX := 1, cursorY := 1, pin := [] } ∧
      ([] : List Char) ≠ ['7'] := by decide

/-- Claim C6 as amended: delete on an empty pin is a no-op, delete on a
non-empty pin removes exactly the last character, and a single delete
after an append restores the pre-append state:
delete(append(x)) = identity. -/
theorem delete_behavior_amended (s : State) (h1 : 0 ≤ s.cursorY)
    (h2 : s.cursorY ≤ 2) (h3 : 0 ≤ s.cursorX) (h4 : s.cursorX ≤ 2) :
    (s.pin = [] →
      step s (keyEvent Key.backspace) = Outcome.running s ∧
        step s (keyEvent Key.backspace2) = Outcome.running s) ∧
    (s.pin ≠ [] →
      step s (keyEvent Key.backspace) =
          Outcome.running { s with pin := s.pin.dropLast } ∧
        step s (keyEvent Key.backspace2) =
          Outcome.running { s with pin := s.pin.dropLast }) ∧
    runFrom s [keyEvent Key.space, keyEvent Key.backspace] =
      Outcome.running s := by
  obtain ⟨cx, cy, p⟩ := s
  dsimp at h1 h2 h3 h4
  refine ⟨?_, ?_, ?_⟩
  · intro hpin
    dsimp at hpin
    subst hpin
    constructor <;>
    · show afterSwitch _ = _
      simp [afterSwitch, deleteLast, clamp_id _ h1 h2, clamp_id _ h3 h4]
  · intro hpin
    dsimp at hpin
    have hd : deleteLast p = p.dropLast := by
      unfold deleteLast
      rw [if_pos]
      exact List.length_pos.mpr hpin
    constructor <;>
    · show afterSwitch _ = _
      simp [afterSwitch, hd, clamp_id _ h1 h2, clamp_id _ h3 h4]
  · have hstep1 : step ⟨cx, cy, p⟩ (keyEvent Key.space) =
        Outcome.running ⟨cx, cy, p ++ [specDigit cy cx]⟩ := by
      show afterSwitch _ = _
      rw [show keypadAt (State.mk cx cy p).cursorY (State.mk cx cy p).cursorX =
            [specDigit cy cx] from keypadAt_eq_specDigit cy cx h1 h2 h3 h4]
      simp [afterSwitch, clamp_id _ h1 h2, clamp_id _ h3 h4]
    have hstep2 : step ⟨cx, cy, p ++ [specDigit cy cx]⟩ (keyEvent Key.backspace) =
        Outcome.running ⟨cx, cy, p⟩ := by
      show afterSwitch _ = _
      have hd : deleteLast (p ++ [specDigit cy cx]) = p := by
        unfold deleteLast
        rw [if_pos (by simp)]
        simp
      simp [afterSwitch, hd, clamp_id _ h1 h2, clamp_id _ h3 h4]
    show List.foldl stepO _ _ = _
    rw [List.foldl_cons, List.foldl_cons, List.foldl_nil]
    show stepO (step ⟨cx, cy, p⟩ (keyEvent Key.space)) (keyEvent Key.backspace) = _
    rw [hstep1]
    exact hstep2

/-- Witness for the amended C6 at a one-digit pin and the initial pin. -/
theorem delete_behavior_amended_witness :
    (step initState (keyEvent Key.backspace) = Outcome.running initState ∧
      step initState (keyEvent Key.backspace2) = Outcome.running initState) ∧
      runFrom { cursorX := 1, cursorY := 1, pin := ['7'] }
          [keyEvent Key.space, keyEvent Key.backspace] =
        Outcome.running { cursorX := 1, cursorY := 1, pin := ['7'] } :=
  ⟨(delete_behavior_amended initState (by decide) (by decide) (by decide)
      (by decide)).1 rfl,
    (delete_behavior_amended { cursorX := 1, cursorY := 1, pin := ['7'] }
      (by decide) (by decide) (by decide) (by decide)).2.2⟩

/-- Claim C7, counterexample: when `termbox.Init()` fails, `GetPIN`
returns before the `defer termbox.Close()` is registered, so the release
is invoked zero times on the initialization-failure exit path, not once. -/
theorem release_not_called_on_init_failure :
    GetPIN true [] = some (([], GoError.initFailure), 0) ∧ (0 : Nat) ≠ 1 := by
  decide

/-- Claim C7 as amended: on every exit path after successful acquisition
(submit or cancel) the release runs exactly once, and on initialization
failure it is not invoked at all. -/
theorem release_once_after_acquisition (es : List Event)
    (r : (List Char × GoError) × Nat) (h : GetPIN false es = some r) :
    r.2 = 1 ∧ GetPIN true es = some (([], GoError.initFailure), 0) := by
  constructor
  · unfold GetPIN at h
    rw [if_neg (by simp)] at h
    cases hrun : runFrom initState es with
    | running s1 =>
      rw [hrun] at h
      exact Option.noConfusion h
    | done ret err =>
      rw [hrun] at h
      injection h with h
      subst h
      rfl
  · simp [GetPIN]

/-- Witness for the amended C7 at a submit-only session. -/
theorem release_once_after_acquisition_witness :
    GetPIN false [keyEvent Key.enter] =
        some ((([] : List Char), GoError.none), 1) ∧
      (((([] : List Char), GoError.none), 1).2 = 1 ∧
        GetPIN true [keyEvent Key.enter] =
          some (([], GoError.initFailure), 0)) :=
  ⟨by decide,
    release_once_after_acquisition [keyEvent Key.enter]
      ((([] : List Char), GoError.none), 1) (by decide)⟩

lemma maskDots_eq_replicate (pin : List Char) :
    maskDots pin = List.replicate pin.length '●' := by
  induction pin with
  | nil => rfl
  | cons c cs ih =>
    show '●' :: maskDots cs = '●' :: List.replicate cs.length '●'
    rw [ih]

/-- Claim C8: the pin field of a frame is one mask glyph per accumulated
digit, and the whole rendered frame depends on the pin only through its
length: states with equal pin length, cursor and prompt render
identically. -/
theorem render_depends_only_on_pin_length (prompt : List Char)
    (s1 s2 : State) (hl : s1.pin.length = s2.pin.length)
    (hx : s1.cursorX = s2.cursorX) (hy : s1.cursorY = s2.cursorY) :
    maskDots s1.pin = List.replicate s1.pin.length '●' ∧
      render prompt s1 = render prompt s2 := by
  refine ⟨maskDots_eq_replicate _, ?_⟩
  unfold render
  rw [maskDots_eq_replicate, maskDots_eq_replicate, hl, hx, hy]

/-- Witness for C8: pins 7 and 3 of equal length render the same frame. -/
theorem render_depends_only_on_pin_length_witness :
    (⟨1, 1, ['7']⟩ : State).pin.length = (⟨1, 1, ['3']⟩ : State).pin.length ∧
      (maskDots (⟨1, 1, ['7']⟩ : State).pin =
          List.replicate (⟨1, 1, ['7']⟩ : State).pin.length '●' ∧
        render [] (⟨1, 1, ['7']⟩ : State) = render [] (⟨1, 1, ['3']⟩ : State)) :=
  ⟨rfl, render_depends_only_on_pin_length [] ⟨1, 1, ['7']⟩ ⟨1, 1, ['3']⟩ rfl
    rfl rfl⟩

/-- Claim C9: a non-key event, or a key event that is none of quit, the
four arrows, space, the backspaces or enter, leaves the state unchanged
and the session running. -/
theorem other_events_ignored (s : State) (h1 : 0 ≤ s.cursorY)
    (h2 : s.cursorY ≤ 2) (h3 : 0 ≤ s.cursorX) (h4 : s.cursorX ≤ 2) :
    (∀ e : Event, e.isKey = false → step s e = Outcome.running s) ∧
    (∀ e : Event, e.isKey = true → e.ch ≠ 'q' →
      e.key = Key.noKey ∨ e.key = Key.otherKey →
      step s e = Outcome.running s) := by
  constructor
  · intro e he
    simp [step, he]
  · rintro ⟨ik, ch, k⟩ hk hq hother
    dsimp at hk hq hother
    subst hk
    rcases hother with rfl | rfl <;>
    · simp only [step, Bool.true_eq_false, if_false]
      rw [if_neg (by simp [hq])]
      show afterSwitch _ = _
      simp [afterSwitch, clamp_id _ h1 h2, clamp_id _ h3 h4]

/-- Witness for C9 at the initial state, with a non-key event and with an
unrecognized character key event. -/
theorem other_events_ignored_witness :
    (({ isKey := false, ch := Char.ofNat 0, key := Key.noKey } : Event).isKey
        = false ∧
      step initState { isKey := false, ch := Char.ofNat 0, key := Key.noKey } =
        Outcome.running initState) ∧
    ((charEvent 'x').isKey = true ∧ (charEvent 'x').ch ≠ 'q' ∧
      step initState (charEvent 'x') = Outcome.running initState) :=
  ⟨⟨rfl,
      (other_events_ignored initState (by decide) (by decide) (by decide)
            (by decide)).1
        { isKey := false, ch := Char.ofNat 0, key := Key.noKey } rfl⟩,
    ⟨rfl, by decide,
      (other_events_ignored initState (by decide) (by decide) (by decide)
            (by decide)).2
        (charEvent 'x') rfl (by decide) (Or.inl rfl)⟩⟩
